import Mathlib

/-!
Shallow embedding of the FMUploadMaster Telegram bot (src/FMUploadMaster-bot.py):
the persistence layer (`DatabaseManager` over PostgreSQL), the access-control
evaluation (`handle_category_access`), the upload-session state machine and the
delivery loops, together with theorems checking the specification's claims.

Python strings are modelled as Lean `String`s; Python string slicing and
`startswith` are modelled on the underlying character list.  SQL `ORDER BY` on
a timestamp column is modelled as a stable insertion sort on the row list;
timestamps are `Nat`.  Database faults are injected through `Option DBErr`
parameters standing for the exception (if any) raised by the corresponding
cursor/retry call.
-/

namespace FMUpload

/-- Row of the `files` table (`id SERIAL PRIMARY KEY`, `category_id`,
`file_id`, `file_name`, `file_size`, `file_type`, `caption`, `upload_date`).
The columns returned to Python callers are grouped in `FileInfo`. -/
structure FileInfo where
  file_id : String
  file_name : String
  file_size : Int
  file_type : String
  caption : String
deriving DecidableEq

/-- A stored row of the `files` table: the SERIAL `id`, the owning
`category_id`, the client-visible columns, and the `upload_date` timestamp. -/
structure FileRow where
  rowId : Nat
  category_id : String
  info : FileInfo
  upload_date : Nat
deriving DecidableEq

/-- Row of the `categories` table. -/
structure CategoryRow where
  id : String
  name : String
  created_by : Int
  created_at : Nat
deriving DecidableEq

/-- Row of the `channels` table. -/
structure ChannelRow where
  channel_id : String
  channel_name : String
  invite_link : String
  created_at : Nat
deriving DecidableEq

/-- The dict returned per channel by `DatabaseManager.get_channels`
(`channel_id`, `channel_name`, `invite_link`). -/
structure ChannelView where
  channel_id : String
  channel_name : String
  invite_link : String
deriving DecidableEq

/-- The dict built by `get_categories` / `get_category` for one category:
`name`, `files`, `created_by`, `created_at`. -/
structure CategoryView where
  name : String
  files : List FileInfo
  created_by : Int
  created_at : Nat
deriving DecidableEq

/-- The PostgreSQL database contents: the three tables plus the next SERIAL
value for `files.id`. -/
structure DBState where
  categories : List CategoryRow
  files : List FileRow
  channels : List ChannelRow
  nextRowId : Nat
deriving DecidableEq

/-- `ORDER BY upload_date ASC` comparison on `files` rows. -/
def uploadLe (a b : FileRow) : Prop :=
  a.upload_date ≤ b.upload_date

instance : DecidableRel uploadLe :=
  fun a b => Nat.decLe a.upload_date b.upload_date

instance : IsTotal FileRow uploadLe :=
  ⟨fun a b => Nat.le_total a.upload_date b.upload_date⟩

instance : IsTrans FileRow uploadLe :=
  ⟨fun _ _ _ h h2 => Nat.le_trans h h2⟩

/-- `ORDER BY created_at DESC` comparison on `categories` rows. -/
def createdGe (a b : CategoryRow) : Prop :=
  b.created_at ≤ a.created_at

instance : DecidableRel createdGe :=
  fun a b => Nat.decLe b.created_at a.created_at

instance : IsTotal CategoryRow createdGe :=
  ⟨fun a b => (Nat.le_total b.created_at a.created_at)⟩

instance : IsTrans CategoryRow createdGe :=
  ⟨fun _ _ _ h h2 => Nat.le_trans h2 h⟩

/-- `ORDER BY created_at ASC` comparison on `channels` rows. -/
def chanLe (a b : ChannelRow) : Prop :=
  a.created_at ≤ b.created_at

instance : DecidableRel chanLe :=
  fun a b => Nat.decLe a.created_at b.created_at

instance : IsTotal ChannelRow chanLe :=
  ⟨fun a b => Nat.le_total a.created_at b.created_at⟩

instance : IsTrans ChannelRow chanLe :=
  ⟨fun _ _ _ h h2 => Nat.le_trans h h2⟩

/-- Errors raised by a database call: `psycopg2.OperationalError`
(connectivity) or any other exception. -/
inductive DBErr where
  | opErr
  | otherErr
deriving DecidableEq

/-- Outcome of one execution attempt of a statement inside
`_execute_with_retry`: a result, an `OperationalError`, or another
exception. -/
inductive ExecOutcome (α : Type) where
  | ok (result : α)
  | opError
  | otherError

/-- Observable side effects of `_execute_with_retry`: how many times the
statement was executed, how many `time.sleep(1)` calls ran, how many
reconnect attempts were made, and whether `rollback` was called. -/
structure RetryTrace where
  attempts : Nat
  sleeps : Nat
  reconnects : Nat
  rolledBack : Bool
deriving DecidableEq

/-- `max_retries = 3` in `_execute_with_retry`. -/
def maxRetries : Nat := 3

/-- The `for attempt in range(max_retries)` loop body of
`_execute_with_retry`.  `fuel` is the number of loop iterations left
(`max_retries - attempt`); the fuel-0 case is unreachable from
`execute_with_retry` because the final attempt either returns or raises. -/
def retryLoop (outcome : Nat → ExecOutcome α) :
    Nat → Nat → RetryTrace → Except DBErr α × RetryTrace
  | 0, _, tr => (.error .opErr, tr)
  | fuel + 1, attempt, tr =>
    let tr := { tr with attempts := tr.attempts + 1 }
    match outcome attempt with
    | .ok a => (.ok a, tr)
    | .opError =>
      if attempt < maxRetries - 1 then
        retryLoop outcome fuel (attempt + 1)
          { tr with sleeps := tr.sleeps + 1, reconnects := tr.reconnects + 1 }
      else
        (.error .opErr, tr)
    | .otherError => (.error .otherErr, { tr with rolledBack := true })

/-- `DatabaseManager._execute_with_retry`: execute a statement, retrying on
`OperationalError` with a 1-second sleep and a reconnect between attempts,
re-raising once the attempt budget is spent; any other exception rolls back
and re-raises immediately. -/
def execute_with_retry (outcome : Nat → ExecOutcome α) : Except DBErr α × RetryTrace :=
  retryLoop outcome maxRetries 0 ⟨0, 0, 0, false⟩

/-- Result of one internal database call, with an injected fault: `none`
means the call succeeds with the value the query computes over the current
state, `some e` means the call raises `e` (for `opErr`, e.g. after
`_execute_with_retry` exhausted its budget). -/
def call (fault : Option DBErr) (v : α) : Except DBErr α :=
  match fault with
  | some e => .error e
  | none => .ok v

/-- `SELECT channel_id, channel_name, invite_link FROM channels ORDER BY
created_at ASC`. -/
def channelRowsSorted (db : DBState) : List ChannelRow :=
  db.channels.insertionSort chanLe

/-- `DatabaseManager.get_channels`: list the mandatory channels in
creation-time ascending order; any exception is caught and the empty list is
returned. -/
def get_channels (db : DBState) (fault : Option DBErr) : List ChannelView :=
  match call fault (channelRowsSorted db) with
  | .error _ => []
  | .ok channels_data =>
    channels_data.map (fun row => ⟨row.channel_id, row.channel_name, row.invite_link⟩)

/-- `SELECT id, name, created_by, created_at FROM categories ORDER BY
created_at DESC`. -/
def catRowsSortedDesc (db : DBState) : List CategoryRow :=
  db.categories.insertionSort createdGe

/-- The queries `get_categories` issues against the backend. -/
inductive DBQuery where
  | categoriesQ
  | filesQ (category_ids : List String)
deriving DecidableEq

/-- `DatabaseManager.get_categories`: fetch all categories ordered by
creation time descending, then fetch the files of all those categories in
one `WHERE category_id IN (...) ORDER BY upload_date ASC` query and group
them per category in memory.  Any exception yields the empty dict.  The
second component records the queries issued. -/
def get_categories (db : DBState) (fault1 fault2 : Option DBErr) :
    List (String × CategoryView) × List DBQuery :=
  match call fault1 (catRowsSortedDesc db) with
  | .error _ => ([], [.categoriesQ])
  | .ok categories_data =>
    if categories_data.isEmpty then ([], [.categoriesQ])
    else
      let category_ids := categories_data.map (·.id)
      match call fault2
          ((db.files.filter (fun f => category_ids.contains f.category_id)).insertionSort
            uploadLe) with
      | .error _ => ([], [.categoriesQ, .filesQ category_ids])
      | .ok files_data =>
        (categories_data.map (fun c =>
          (c.id,
            { name := c.name,
              files := (files_data.filter (fun f => f.category_id == c.id)).map (·.info),
              created_by := c.created_by,
              created_at := c.created_at })),
         [.categoriesQ, .filesQ category_ids])

/-- `DatabaseManager.get_category`: fetch one category row by id (`None`
when absent), then its files ordered by upload date ascending; any
exception yields `None`. -/
def get_category (db : DBState) (category_id : String) (fault1 fault2 : Option DBErr) :
    Option CategoryView :=
  match call fault1 (db.categories.find? (fun c => c.id == category_id)) with
  | .error _ => none
  | .ok none => none
  | .ok (some cat_data) =>
    match call fault2
        ((db.files.filter (fun f => f.category_id == category_id)).insertionSort uploadLe) with
    | .error _ => none
    | .ok files_data =>
      some
        { name := cat_data.name,
          files := files_data.map (·.info),
          created_by := cat_data.created_by,
          created_at := cat_data.created_at }

/-- `DatabaseManager.add_category`: INSERT a category row; a uniqueness
violation on `id` or `name` (IntegrityError) or any other exception is
caught and `False` is returned. -/
def add_category (db : DBState) (category_id name : String) (created_by : Int)
    (now : Nat) (fault : Option DBErr) : Bool × DBState :=
  match fault with
  | some _ => (false, db)
  | none =>
    if db.categories.any (fun c => c.id == category_id || c.name == name) then
      (false, db)
    else
      (true, { db with categories := db.categories ++ [⟨category_id, name, created_by, now⟩] })

/-- One row of the `executemany` INSERT of `add_files_to_category`:
`ON CONFLICT ON CONSTRAINT files_file_id_unique DO NOTHING` skips the row
when its `file_id` is already present (stored earlier, or inserted earlier
in the same batch). -/
def insertIgnore (category_id : String) (now : Nat) (acc : List FileRow × Nat)
    (file_info : FileInfo) : List FileRow × Nat :=
  if acc.1.any (fun r => r.info.file_id == file_info.file_id) then acc
  else (acc.1 ++ [⟨acc.2, category_id, file_info, now⟩], acc.2 + 1)

/-- `DatabaseManager.add_files_to_category`: batch-insert with per-row
conflict-ignore on `file_id`; `CURRENT_TIMESTAMP` stamps the whole batch with
the transaction time `now`.  A missing category violates the foreign key and
any exception rolls the batch back and returns `False`; otherwise commit and
return `True`. -/
def add_files_to_category (db : DBState) (category_id : String) (files : List FileInfo)
    (fault : Option DBErr) (now : Nat) : Bool × DBState :=
  match fault with
  | some _ => (false, db)
  | none =>
    if db.categories.any (fun c => c.id == category_id) then
      let rows := files.foldl (insertIgnore category_id now) (db.files, db.nextRowId)
      (true, { db with files := rows.1, nextRowId := rows.2 })
    else
      (false, db)

/-- `DatabaseManager.delete_file`: `SELECT id FROM files WHERE category_id
= %s ORDER BY upload_date ASC LIMIT 1 OFFSET %s`; when a row comes back,
DELETE it by `id` and return `True`, otherwise return `False`.  Any
exception rolls back and returns `False`. -/
def delete_file (db : DBState) (category_id : String) (file_index : Nat)
    (fault : Option DBErr) : Bool × DBState :=
  match fault with
  | some _ => (false, db)
  | none =>
    let ordered := (db.files.filter (fun f => f.category_id == category_id)).insertionSort uploadLe
    match ordered[file_index]? with
    | some row =>
      (true, { db with files := db.files.filter (fun f => !(f.rowId == row.rowId)) })
    | none => (false, db)

/-- `DatabaseManager.delete_category`: DELETE the category row; the
`ON DELETE CASCADE` constraint removes its files.  Returns `True` unless an
exception occurs. -/
def delete_category (db : DBState) (category_id : String) (fault : Option DBErr) :
    Bool × DBState :=
  match fault with
  | some _ => (false, db)
  | none =>
    (true,
      { db with
        categories := db.categories.filter (fun c => !(c.id == category_id)),
        files := db.files.filter (fun f => !(f.category_id == category_id)) })

/-- `DatabaseManager.delete_channel`: DELETE by `channel_id`; returns `True`
unless an exception occurs. -/
def delete_channel (db : DBState) (channel_id : String) (fault : Option DBErr) :
    Bool × DBState :=
  match fault with
  | some _ => (false, db)
  | none =>
    (true, { db with channels := db.channels.filter (fun c => !(c.channel_id == channel_id)) })

/-- `FileManagerBot.is_admin`: `user_id in ADMIN_IDS`. -/
def is_admin (adminIds : List Int) (user_id : Int) : Bool :=
  adminIds.contains user_id

/-- Python `s.startswith(p)` on strings viewed as character sequences. -/
def pyStartsWith (s p : String) : Bool :=
  p.data.isPrefixOf s.data

/-- Python slicing `s[n:]` on strings viewed as character sequences. -/
def pySliceFrom (s : String) (n : Nat) : String :=
  ⟨s.data.drop n⟩

/-- The statuses accepted by the membership gate:
`['member', 'administrator', 'creator']`. -/
def memberStatuses : List String :=
  ["member", "administrator", "creator"]

/-- Where `handle_category_access` routed the request. -/
inductive AccessResult where
  | adminMenu (category_id : String)
  | filesSent (category_id : String)
  | joinPrompt (missing : List ChannelView) (category_id : String)
deriving DecidableEq

/-- Side effects of one access evaluation: whether `get_channels` was called
and which channels had `get_chat_member` queried. -/
structure AccessTrace where
  channelsFetched : Bool
  membershipQueries : List String
deriving DecidableEq

/-- The `for channel in channels` membership loop of
`handle_category_access`: `membership` returns the `get_chat_member` status
for this user in a channel, or the exception it raised.  Returns the
accumulated `non_joined_channels` list and the channel ids queried, in loop
order. -/
def checkChannels (membership : String → Except Unit String) :
    List ChannelView → List ChannelView × List String
  | [] => ([], [])
  | ch :: rest =>
    let tail := checkChannels membership rest
    match membership ch.channel_id with
    | .ok status =>
      if memberStatuses.contains status then (tail.1, ch.channel_id :: tail.2)
      else (ch :: tail.1, ch.channel_id :: tail.2)
    | .error _ => (ch :: tail.1, ch.channel_id :: tail.2)

/-- `handle_category_access`: admins are routed to the admin menu without
touching the channel table; otherwise the mandatory channels are fetched
(empty list means immediate delivery), each channel's membership is queried
(an exception counting as not joined), and the files are sent when no
channel is missing, else the join keyboard listing the missing channels is
shown. -/
def handle_category_access (adminIds : List Int) (db : DBState)
    (membership : String → Except Unit String) (chanFault : Option DBErr)
    (user_id : Int) (category_id : String) : AccessResult × AccessTrace :=
  if is_admin adminIds user_id then
    (.adminMenu category_id, ⟨false, []⟩)
  else
    let channels := get_channels db chanFault
    if channels.isEmpty then
      (.filesSent category_id, ⟨true, []⟩)
    else
      let checked := checkChannels membership channels
      if checked.1.isEmpty then
        (.filesSent category_id, ⟨true, checked.2⟩)
      else
        (.joinPrompt checked.1 category_id, ⟨true, checked.2⟩)

/-- The object a handler passes along as `update`: either a genuine
`telegram.Update` (which has the `effective_user` / `effective_chat`
properties) or a `telegram.CallbackQuery` (which has `from_user` but no
`effective_user` / `effective_chat`). -/
inductive TgObj where
  | update (effective_user_id effective_chat_id : Int)
  | callbackQuery (from_user_id : Int)
deriving DecidableEq

/-- Result of a Python attribute access or handler body: a value, or the
`AttributeError` raised by dereferencing a missing attribute. -/
inductive PyResult (α : Type) where
  | ok (a : α)
  | attributeError
deriving DecidableEq

/-- `update.effective_user.id`: succeeds on an `Update`, raises
`AttributeError` on a `CallbackQuery`. -/
def effective_user_id : TgObj → PyResult Int
  | .update u _ => .ok u
  | .callbackQuery _ => .attributeError

/-- `update.effective_chat.id`: succeeds on an `Update`, raises
`AttributeError` on a `CallbackQuery`. -/
def effective_chat_id : TgObj → PyResult Int
  | .update _ c => .ok c
  | .callbackQuery _ => .attributeError

/-- The full Python `handle_category_access(update, context, category_id)`:
its first two statements dereference `update.effective_user.id` and
`update.effective_chat.id`; only if both succeed does the body
(`handle_category_access`) evaluate. -/
def handle_category_access_py (adminIds : List Int) (db : DBState)
    (membership : String → Except Unit String) (chanFault : Option DBErr)
    (obj : TgObj) (category_id : String) : PyResult (AccessResult × AccessTrace) :=
  match effective_user_id obj with
  | .attributeError => .attributeError
  | .ok user_id =>
    match effective_chat_id obj with
    | .attributeError => .attributeError
    | .ok _chat_id =>
      .ok (handle_category_access adminIds db membership chanFault user_id category_id)

/-- What an inbound `start` command or callback press resolved to.
`adminButton` stands for the admin-only inline-button branches of
`button_handler` (view/add/delete), which no claim inspects further;
`attributeError` is an `AttributeError` escaping the handler. -/
inductive UpdateResult where
  | accessEval (r : AccessResult × AccessTrace)
  | adminGreeting
  | userGreeting
  | adminButton (data : String)
  | notAllowed
  | attributeError
deriving DecidableEq

/-- The `start` handler: it reads `update.effective_user.id` from the
genuine `Update` it receives, then a `cat_<id>` deep-link payload routes
into `handle_category_access(update, ...)`; otherwise the admin or user
greeting is shown. -/
def start_command (adminIds : List Int) (db : DBState)
    (membership : String → Except Unit String) (chanFault : Option DBErr)
    (obj : TgObj) (args : List String) : UpdateResult :=
  match effective_user_id obj with
  | .attributeError => .attributeError
  | .ok user_id =>
    match args with
    | arg0 :: _ =>
      if pyStartsWith arg0 "cat_" then
        match handle_category_access_py adminIds db membership chanFault obj
            (pySliceFrom arg0 4) with
        | .ok r => .accessEval r
        | .attributeError => .attributeError
      else if is_admin adminIds user_id then .adminGreeting else .userGreeting
    | [] => if is_admin adminIds user_id then .adminGreeting else .userGreeting

/-- `button_handler`: a `check_membership_<id>` callback calls
`handle_category_access(query, context, <id>)` with the `CallbackQuery`
object itself (`query`) in the `update` position, the id taken after the
17-character marker; the other branches are admin-only (they use only
`CallbackQuery` attributes that exist). -/
def button_handler (adminIds : List Int) (db : DBState)
    (membership : String → Except Unit String) (chanFault : Option DBErr)
    (from_user_id : Int) (data : String) : UpdateResult :=
  if pyStartsWith data "check_membership_" then
    match handle_category_access_py adminIds db membership chanFault
        (.callbackQuery from_user_id) (pySliceFrom data 17) with
    | .ok r => .accessEval r
    | .attributeError => .attributeError
  else if is_admin adminIds from_user_id then .adminButton data
  else .notAllowed

/-- `bot_manager.pending_uploads[user_id]`: the category being uploaded to
and the files accumulated so far. -/
structure PendingUpload where
  category_id : String
  files : List FileInfo
deriving DecidableEq

/-- The mutable bot state the upload flow touches: the database and the
`pending_uploads` dict keyed by admin user id. -/
structure BotState where
  db : DBState
  pending_uploads : Int → Option PendingUpload

/-- Dict update `pending_uploads[k] = v` (or deletion when `v = none`). -/
def updPending (f : Int → Option PendingUpload) (k : Int) (v : Option PendingUpload) :
    Int → Option PendingUpload :=
  fun k2 => if k2 == k then v else f k2

/-- `upload_command`: an admin naming an existing category gets a fresh
empty `pending_uploads` entry (silently replacing any in-progress one);
non-admins and unknown categories leave the state unchanged. -/
def upload_command (adminIds : List Int) (st : BotState) (user_id : Int)
    (category_id : String) : BotState :=
  if is_admin adminIds user_id then
    match get_category st.db category_id none none with
    | none => st
    | some _ =>
      { st with pending_uploads := updPending st.pending_uploads user_id (some ⟨category_id, []⟩) }
  else st

/-- `start_adding_files` (the `add_<id>` inline button): unconditionally
installs a fresh empty `pending_uploads` entry for the category. -/
def start_adding_files (st : BotState) (user_id : Int) (category_id : String) : BotState :=
  { st with pending_uploads := updPending st.pending_uploads user_id (some ⟨category_id, []⟩) }

/-- `handle_media`: ignored unless the user has a pending upload; an
unsupported message kind (`extract_file_info` returned `None`) is rejected
without touching the session; otherwise the file is appended to the
accumulated list. -/
def handle_media (st : BotState) (user_id : Int) (file_info : Option FileInfo) : BotState :=
  match st.pending_uploads user_id with
  | none => st
  | some upload_info =>
    match file_info with
    | none => st
    | some fi =>
      { st with
        pending_uploads :=
          updPending st.pending_uploads user_id
            (some { upload_info with files := upload_info.files ++ [fi] }) }

/-- `finish_upload`: pop the pending session; with no session or no
accumulated files nothing is persisted, otherwise the batch goes to
`add_files_to_category`.  Returns the new state and whether the batch call
reported success. -/
def finish_upload (st : BotState) (user_id : Int) (now : Nat) (fault : Option DBErr) :
    BotState × Bool :=
  match st.pending_uploads user_id with
  | none => (st, false)
  | some upload_info =>
    let st1 : BotState := { st with pending_uploads := updPending st.pending_uploads user_id none }
    if upload_info.files.isEmpty then (st1, false)
    else
      let r := add_files_to_category st1.db upload_info.category_id upload_info.files fault now
      ({ st1 with db := r.2 }, r.1)

/-- An outbound media send: the Telegram call chosen by the `file_type`
dispatch, carrying the stored token and caption. -/
inductive SendOp where
  | sendDocument (chat_id : Int) (file_id caption : String)
  | sendPhoto (chat_id : Int) (file_id caption : String)
  | sendVideo (chat_id : Int) (file_id caption : String)
  | sendAudio (chat_id : Int) (file_id caption : String)
  | sendVoice (chat_id : Int) (file_id caption : String)
deriving DecidableEq

/-- One observable step of a delivery loop iteration: an outbound send
attempt, the `asyncio.sleep(0.5)` pacing delay, or the `except` branch
logging a failed send. -/
inductive DeliveryEvent where
  | send (op : SendOp)
  | sleep
  | errorLogged
deriving DecidableEq

/-- The `file_type` dispatch of `send_category_files`: all five supported
kinds map to a send operation. -/
def sendOpFor (chat_id : Int) (fi : FileInfo) : Option SendOp :=
  if fi.file_type == "document" then some (.sendDocument chat_id fi.file_id fi.caption)
  else if fi.file_type == "photo" then some (.sendPhoto chat_id fi.file_id fi.caption)
  else if fi.file_type == "video" then some (.sendVideo chat_id fi.file_id fi.caption)
  else if fi.file_type == "audio" then some (.sendAudio chat_id fi.file_id fi.caption)
  else if fi.file_type == "voice" then some (.sendVoice chat_id fi.file_id fi.caption)
  else none

/-- The `file_type` dispatch of `view_category_files`: only the `document`
and `photo` branches exist in the code (the trailing comment claims the
other kinds are handled the same way, but no such branches follow). -/
def viewSendOpFor (chat_id : Int) (fi : FileInfo) : Option SendOp :=
  if fi.file_type == "document" then some (.sendDocument chat_id fi.file_id fi.caption)
  else if fi.file_type == "photo" then some (.sendPhoto chat_id fi.file_id fi.caption)
  else none

/-- The per-file loop shared by both delivery functions, specialised by the
dispatch table `opFor`.  `sendFail i` says whether the send of the `i`-th
file raises; the whole iteration body sits in one `try`, so a failed send
skips the sleep and is logged, and the loop continues with the next file.
A file whose type matches no branch falls through to the sleep. -/
def deliveryLoop (opFor : Int → FileInfo → Option SendOp) (chat_id : Int)
    (sendFail : Nat → Bool) : Nat → List FileInfo → List DeliveryEvent
  | _, [] => []
  | i, fi :: rest =>
    (match opFor chat_id fi with
      | some op => if sendFail i then [.send op, .errorLogged] else [.send op, .sleep]
      | none => [.sleep]) ++
    deliveryLoop opFor chat_id sendFail (i + 1) rest

/-- What a delivery request resolved to. -/
inductive DeliveryResult where
  | categoryNotFound
  | emptyCategory
  | sent (events : List DeliveryEvent)
deriving DecidableEq

/-- `send_category_files`: the non-admin delivery path, dispatching all
five supported media kinds. -/
def send_category_files (db : DBState) (chat_id : Int) (category_id : String)
    (sendFail : Nat → Bool) : DeliveryResult :=
  match get_category db category_id none none with
  | none => .categoryNotFound
  | some category =>
    if category.files.isEmpty then .emptyCategory
    else .sent (deliveryLoop sendOpFor chat_id sendFail 0 category.files)

/-- `view_category_files`: the admin view-files button path, whose dispatch
covers only documents and photos. -/
def view_category_files (db : DBState) (chat_id : Int) (category_id : String)
    (sendFail : Nat → Bool) : DeliveryResult :=
  match get_category db category_id none none with
  | none => .categoryNotFound
  | some category =>
    if category.files.isEmpty then .emptyCategory
    else .sent (deliveryLoop viewSendOpFor chat_id sendFail 0 category.files)

/-- The sends attempted during a delivery trace, in order. -/
def sendsOf (events : List DeliveryEvent) : List SendOp :=
  events.filterMap (fun e => match e with | .send op => some op | _ => none)

/-- Specification-side characterisation of a channel the user has not
joined: the membership query failed, or returned a status outside
`['member', 'administrator', 'creator']`. -/
def notJoined (membership : String → Except Unit String) (ch : ChannelView) : Bool :=
  match membership ch.channel_id with
  | .ok status => !(memberStatuses.contains status)
  | .error _ => true

/-- A database whose channel table holds two mandatory channels. -/
def dbAcc : DBState :=
  { categories := [], files := [],
    channels := [⟨"ch1", "Chan One", "https one", 1⟩, ⟨"ch2", "Chan Two", "https two", 2⟩],
    nextRowId := 1 }

/-- A membership oracle under which every user is a member of nothing. -/
def memberNone : String → Except Unit String := fun _ => .ok "left"

/-- A membership oracle that raises for channel `ch1` and reports status
`left` elsewhere. -/
def memberErrCh1 : String → Except Unit String :=
  fun s => if s == "ch1" then .error () else .ok "left"

/-- A database with two categories `catA` and `catB` and no files, for the
double-upload scenario. -/
def dbUp : DBState :=
  { categories := [⟨"catA", "A", 1, 0⟩, ⟨"catB", "B", 1, 1⟩],
    files := [], channels := [], nextRowId := 1 }

/-- Initial bot state over `dbUp` with no pending upload session. -/
def stUp : BotState := { db := dbUp, pending_uploads := fun _ => none }

/-- File X of the double-upload scenario. -/
def fX : FileInfo := ⟨"fidX", "x.bin", 1, "document", ""⟩

/-- File Y of the double-upload scenario. -/
def fY : FileInfo := ⟨"fidY", "y.bin", 2, "document", ""⟩

/-- A file whose id is already stored, for the duplicate-batch scenario. -/
def f1b : FileInfo := ⟨"dup", "d.bin", 1, "document", ""⟩

/-- A file with a fresh id, for the duplicate-batch scenario. -/
def f2b : FileInfo := ⟨"new", "n.bin", 2, "photo", ""⟩

/-- A database where category `cat1` already stores `f1b`. -/
def dbBatch : DBState :=
  { categories := [⟨"cat1", "C1", 1, 0⟩],
    files := [⟨1, "cat1", f1b, 0⟩], channels := [], nextRowId := 2 }

/-- A stored video file. -/
def fVid : FileInfo := ⟨"fidV", "video.mp4", 10, "video", "cap"⟩

/-- A database whose category `v1` holds exactly one video file. -/
def dbVid : DBState :=
  { categories := [⟨"v1", "vids", 1, 0⟩],
    files := [⟨1, "v1", fVid, 0⟩], channels := [], nextRowId := 2 }

/-- First file of the two-file deletion scenario. -/
def fA : FileInfo := ⟨"fa", "a.bin", 1, "document", ""⟩

/-- Second file of the two-file deletion scenario. -/
def fB : FileInfo := ⟨"fb", "b.bin", 2, "photo", ""⟩

/-- A database whose category `cat1` holds exactly two files. -/
def dbDel : DBState :=
  { categories := [⟨"cat1", "C1", 1, 0⟩],
    files := [⟨1, "cat1", fA, 0⟩, ⟨2, "cat1", fB, 1⟩], channels := [], nextRowId := 3 }

/-- A database with two categories and three files, stored out of upload
order, for the listing scenario. -/
def dbCats : DBState :=
  { categories := [⟨"c1", "One", 1, 5⟩, ⟨"c2", "Two", 1, 9⟩],
    files := [⟨1, "c1", fA, 3⟩, ⟨2, "c2", fB, 1⟩, ⟨3, "c1", fX, 2⟩],
    channels := [], nextRowId := 4 }

/-- The membership loop collects exactly the non-joined channels (in
registration order) and queries every channel. -/
theorem checkChannels_eq (membership : String → Except Unit String)
    (l : List ChannelView) :
    checkChannels membership l = (l.filter (notJoined membership), l.map (·.channel_id)) := by
  induction l with
  | nil => rfl
  | cons ch rest ih =>
    simp only [checkChannels, ih, List.filter_cons, List.map_cons]
    cases h : membership ch.channel_id with
    | ok status =>
      by_cases hs : status ∈ memberStatuses <;>
        simp [notJoined, h, hs]
    | error e => simp [notJoined, h]

/-- A character list is a Boolean prefix of itself followed by anything. -/
theorem isPrefixOf_append_self (p r : List Char) : p.isPrefixOf (p ++ r) = true := by
  induction p with
  | nil => simp
  | cons c cs ih => simp [List.isPrefixOf, ih]

/-- Python `startswith` accepts the literal marker it was built from. -/
theorem pyStartsWith_append (p s : String) : pyStartsWith (p ++ s) p = true := by
  unfold pyStartsWith
  rw [String.data_append]
  exact isPrefixOf_append_self p.data s.data

/-- Slicing off the marker recovers the payload. -/
theorem pySliceFrom_append (p s : String) (n : Nat) (h : p.data.length = n) :
    pySliceFrom (p ++ s) n = s := by
  apply String.ext
  show (p ++ s).data.drop n = s.data
  rw [String.data_append, List.drop_left' h]

/-- C1: for every user id in the configured administrator set and every
category id, `handle_category_access` routes to the admin path
unconditionally — channels are not fetched, no membership query runs —
whatever the registered channels and the admin's membership state are. -/
theorem admin_access_unconditional (adminIds : List Int) (db : DBState)
    (membership : String → Except Unit String) (chanFault : Option DBErr)
    (user_id : Int) (category_id : String)
    (h : is_admin adminIds user_id = true) :
    handle_category_access adminIds db membership chanFault user_id category_id =
      (.adminMenu category_id, ⟨false, []⟩) := by
  simp [handle_category_access, h]

/-- Witness for C1: admin 5 with two registered channels, a member of
neither, is still routed to the admin path with no channel fetch and no
membership query. -/
theorem admin_access_unconditional_witness :
    (get_channels dbAcc none).length = 2 ∧
    handle_category_access [5] dbAcc memberNone none 5 "k" =
      (.adminMenu "k", ⟨false, []⟩) :=
  ⟨by decide, admin_access_unconditional [5] dbAcc memberNone none 5 "k" (by decide)⟩

/-- C2: for a non-admin, a failed membership query marks that channel
non-joined without aborting the remaining queries; the denial lists exactly
the non-joined channels, and when none remain the files are delivered. -/
theorem nonadmin_gate_fail_closed (adminIds : List Int) (db : DBState)
    (membership : String → Except Unit String) (chanFault : Option DBErr)
    (user_id : Int) (category_id : String)
    (h : is_admin adminIds user_id = false) :
    ((get_channels db chanFault).filter (notJoined membership) = [] →
      (handle_category_access adminIds db membership chanFault user_id category_id).1 =
        .filesSent category_id) ∧
    ((get_channels db chanFault).filter (notJoined membership) ≠ [] →
      (handle_category_access adminIds db membership chanFault user_id category_id).1 =
        .joinPrompt ((get_channels db chanFault).filter (notJoined membership)) category_id) ∧
    (get_channels db chanFault ≠ [] →
      (handle_category_access adminIds db membership chanFault user_id
            category_id).2.membershipQueries =
        (get_channels db chanFault).map (·.channel_id)) ∧
    (∀ ch ∈ get_channels db chanFault, membership ch.channel_id = .error () →
      ch ∈ (get_channels db chanFault).filter (notJoined membership)) := by
  have hacc :
      handle_category_access adminIds db membership chanFault user_id category_id =
        (if (get_channels db chanFault).isEmpty then
          (.filesSent category_id, ⟨true, []⟩)
        else if ((get_channels db chanFault).filter (notJoined membership)).isEmpty then
          (.filesSent category_id,
            ⟨true, (get_channels db chanFault).map (·.channel_id)⟩)
        else
          (.joinPrompt ((get_channels db chanFault).filter (notJoined membership)) category_id,
            ⟨true, (get_channels db chanFault).map (·.channel_id)⟩)) := by
    simp only [handle_category_access, h, Bool.false_eq_true, if_false, checkChannels_eq]
  refine ⟨?_, ?_, ?_, ?_⟩
  · intro hempty
    rw [hacc]
    by_cases hc : (get_channels db chanFault).isEmpty <;> simp [hc, hempty]
  · intro hne
    have hchan : get_channels db chanFault ≠ [] := by
      intro h0
      rw [h0] at hne
      simp at hne
    have hc : (get_channels db chanFault).isEmpty = false := by
      simpa [List.isEmpty_iff] using hchan
    rw [hacc]
    simp [hc, List.isEmpty_iff, hne]
  · intro hne
    have hc : (get_channels db chanFault).isEmpty = false := by
      simpa [List.isEmpty_iff] using hne
    rw [hacc]
    by_cases hf : ((get_channels db chanFault).filter (notJoined membership)).isEmpty <;>
      simp [hc, hf]
  · intro ch hch herr
    rw [List.mem_filter]
    exact ⟨hch, by simp [notJoined, herr]⟩

/-- Witness for C2: non-admin user 2, the query for `ch1` raises, `ch2`
reports `left`; the denial lists both channels. -/
theorem nonadmin_gate_fail_closed_witness :
    (handle_category_access [1] dbAcc memberErrCh1 none 2 "x").1 =
      .joinPrompt [⟨"ch1", "Chan One", "https one"⟩, ⟨"ch2", "Chan Two", "https two"⟩] "x" := by
  have h :=
    (nonadmin_gate_fail_closed [1] dbAcc memberErrCh1 none 2 "x" (by decide)).2.1 (by decide)
  rw [h]
  decide

/-- C3 (divergence at the failing input): every `check_membership_<id>`
callback press hands the `CallbackQuery` itself to
`handle_category_access`, whose `update.effective_user` dereference raises
`AttributeError` there — the access evaluation is never re-run — whereas
the initial `cat_<id>` deep-link, arriving as a genuine `Update`, does run
the full evaluation.  The concrete failing input: user 2 presses the
recheck button for category `x` with two channels registered. -/
theorem recheck_raises_attribute_error (adminIds : List Int) (db : DBState)
    (membership : String → Except Unit String) (chanFault : Option DBErr)
    (from_user_id chat_id : Int) (category_id : String) (rest : List String) :
    button_handler adminIds db membership chanFault from_user_id
        ("check_membership_" ++ category_id) = .attributeError ∧
    handle_category_access_py adminIds db membership chanFault
        (.callbackQuery from_user_id) category_id = .attributeError ∧
    start_command adminIds db membership chanFault (.update from_user_id chat_id)
        (("cat_" ++ category_id) :: rest) =
      .accessEval
        (handle_category_access adminIds db membership chanFault from_user_id
          category_id) ∧
    button_handler [1] dbAcc memberErrCh1 none 2 "check_membership_x" = .attributeError := by
  refine ⟨?_, rfl, ?_, by decide⟩
  · simp only [button_handler]
    rw [pyStartsWith_append, if_pos rfl]
    rfl
  · simp only [start_command, effective_user_id]
    rw [pyStartsWith_append, if_pos rfl,
      pySliceFrom_append "cat_" category_id 4 (by decide)]
    rfl

/-- The retry loop executes the statement at most once per unit of fuel. -/
theorem retryLoop_attempts_le (outcome : Nat → ExecOutcome α) :
    ∀ fuel attempt tr, (retryLoop outcome fuel attempt tr).2.attempts ≤ tr.attempts + fuel := by
  intro fuel
  induction fuel with
  | zero => intro attempt tr; simp [retryLoop]
  | succ n ih =>
    intro attempt tr
    cases hout : outcome attempt with
    | ok a => simp [retryLoop, hout]
    | opError =>
      by_cases hlt : attempt < maxRetries - 1
      · have h2 := ih (attempt + 1)
          ⟨tr.attempts + 1, tr.sleeps + 1, tr.reconnects + 1, tr.rolledBack⟩
        simp [retryLoop, hout, hlt] at h2 ⊢
        omega
      · simp [retryLoop, hout, hlt]
    | otherError => simp [retryLoop, hout]

/-- C5: `_execute_with_retry` has a budget of `max_retries = 3` executions
of the statement.  Connectivity (`OperationalError`) failures trigger a
1-second sleep and a reconnect attempt before the next execution; when all
3 executions fail with connectivity errors the last error is re-raised
(after 2 sleeps and 2 reconnects — one between each pair of consecutive
attempts).  A non-connectivity failure rolls back and re-raises at once,
with no further attempt and no sleep. -/
theorem retry_policy_connectivity (α : Type) (outcome : Nat → ExecOutcome α) :
    ((∀ i, i < 3 → outcome i = .opError) →
      execute_with_retry outcome = (.error .opErr, ⟨3, 2, 2, false⟩)) ∧
    (∀ k a, k < 3 → (∀ i, i < k → outcome i = .opError) → outcome k = .ok a →
      execute_with_retry outcome = (.ok a, ⟨k + 1, k, k, false⟩)) ∧
    (∀ k, k < 3 → (∀ i, i < k → outcome i = .opError) → outcome k = .otherError →
      execute_with_retry outcome = (.error .otherErr, ⟨k + 1, k, k, true⟩)) ∧
    (execute_with_retry outcome).2.attempts ≤ 3 := by
  refine ⟨?_, ?_, ?_, ?_⟩
  · intro h
    have h0 := h 0 (by omega)
    have h1 := h 1 (by omega)
    have h2 := h 2 (by omega)
    simp [execute_with_retry, retryLoop, maxRetries, h0, h1, h2]
  · intro k a hk hprev hok
    interval_cases k
    · simp [execute_with_retry, retryLoop, maxRetries, hok]
    · have h0 := hprev 0 (by omega)
      simp [execute_with_retry, retryLoop, maxRetries, h0, hok]
    · have h0 := hprev 0 (by omega)
      have h1 := hprev 1 (by omega)
      simp [execute_with_retry, retryLoop, maxRetries, h0, h1, hok]
  · intro k hk hprev hbad
    interval_cases k
    · simp [execute_with_retry, retryLoop, maxRetries, hbad]
    · have h0 := hprev 0 (by omega)
      simp [execute_with_retry, retryLoop, maxRetries, h0, hbad]
    · have h0 := hprev 0 (by omega)
      have h1 := hprev 1 (by omega)
      simp [execute_with_retry, retryLoop, maxRetries, h0, h1, hbad]
  · exact retryLoop_attempts_le outcome 3 0 ⟨0, 0, 0, false⟩

/-- Witness for C5: a permanently lost connection is executed 3 times, with
2 sleeps and 2 reconnects in between, and the connectivity error is
re-raised. -/
theorem retry_policy_connectivity_witness :
    execute_with_retry (fun _ => (ExecOutcome.opError : ExecOutcome Unit)) =
      (.error .opErr, ⟨3, 2, 2, false⟩) :=
  (retry_policy_connectivity Unit (fun _ => .opError)).1 (fun _ _ => rfl)

/-- C10: every public persistence operation converts an internal failure
(of either kind, in any of its internal calls — in particular the
connectivity error re-raised by `_execute_with_retry` after its budget is
spent) into its sentinel return: empty dict, `None`, empty list, or
`False` with the store unchanged. -/
theorem failures_return_sentinels (db : DBState) (category_id name channel_id : String)
    (created_by : Int) (now : Nat) (e : DBErr) (f2 : Option DBErr)
    (files : List FileInfo) (idx : Nat) :
    (get_categories db (some e) f2).1 = [] ∧
    (get_categories db none (some e)).1 = [] ∧
    get_category db category_id (some e) f2 = none ∧
    get_category db category_id none (some e) = none ∧
    get_channels db (some e) = [] ∧
    add_category db category_id name created_by now (some e) = (false, db) ∧
    delete_category db category_id (some e) = (false, db) ∧
    delete_channel db channel_id (some e) = (false, db) ∧
    add_files_to_category db category_id files (some e) now = (false, db) ∧
    delete_file db category_id idx (some e) = (false, db) := by
  refine ⟨rfl, ?_, rfl, ?_, rfl, rfl, rfl, rfl, rfl, rfl⟩
  · by_cases hc : (catRowsSortedDesc db).isEmpty <;>
      simp [get_categories, call, hc]
  · cases hf : db.categories.find? (fun c => c.id == category_id) <;>
      simp [get_category, call, hf]

/-- A category visible through `get_category` passes the foreign-key check
of the batch insert. -/
theorem any_id_of_get_category (db : DBState) (category_id : String)
    (h : (get_category db category_id none none).isSome = true) :
    db.categories.any (fun c => c.id == category_id) = true := by
  cases hf : db.categories.find? (fun c => c.id == category_id) with
  | none => rw [get_category, call, hf] at h; simp at h
  | some c =>
    have hp := List.find?_some (p := fun (c : CategoryRow) => c.id == category_id) hf
    rw [List.any_eq_true]
    exact ⟨c, List.mem_of_find?_eq_some hf, hp⟩

/-- C4: starting a second upload (by the `/upload` command or the inline
add-files button) replaces the pending session with a fresh empty one for
the new category; in start-A, add X, start-B, add Y, finish, only Y is
persisted, to category B. -/
theorem second_upload_replaces_session (adminIds : List Int) (st : BotState)
    (user : Int) (catA catB : String) (X Y : FileInfo) (now : Nat)
    (st1 st2 st3 st4 : BotState)
    (hadmin : is_admin adminIds user = true)
    (hA : (get_category st.db catA none none).isSome = true)
    (hB : (get_category st.db catB none none).isSome = true)
    (hYfresh : st.db.files.any (fun r => r.info.file_id == Y.file_id) = false)
    (h1 : st1 = upload_command adminIds st user catA)
    (h2 : st2 = handle_media st1 user (some X))
    (h3 : st3 = upload_command adminIds st2 user catB)
    (h4 : st4 = handle_media st3 user (some Y)) :
    st3.pending_uploads user = some ⟨catB, []⟩ ∧
    st3 = start_adding_files st2 user catB ∧
    (finish_upload st4 user now none).2 = true ∧
    (finish_upload st4 user now none).1.pending_uploads user = none ∧
    (finish_upload st4 user now none).1.db.files =
      st.db.files ++ [⟨st.db.nextRowId, catB, Y, now⟩] := by
  obtain ⟨vA, hvA⟩ := Option.isSome_iff_exists.mp hA
  obtain ⟨vB, hvB⟩ := Option.isSome_iff_exists.mp hB
  have e1 : st1 = { st with pending_uploads := updPending st.pending_uploads user (some ⟨catA, []⟩) } := by
    simp [h1, upload_command, hadmin, hvA]
  have p1 : st1.pending_uploads user = some ⟨catA, []⟩ := by
    rw [e1]; simp [updPending]
  have e2 : st2 = { st1 with pending_uploads := updPending st1.pending_uploads user (some ⟨catA, [X]⟩) } := by
    simp [h2, handle_media, p1]
  have edb2 : st2.db = st.db := by rw [e2, e1]
  have e3 : st3 = { st2 with pending_uploads := updPending st2.pending_uploads user (some ⟨catB, []⟩) } := by
    simp [h3, upload_command, hadmin, edb2, hvB]
  have p3 : st3.pending_uploads user = some ⟨catB, []⟩ := by
    rw [e3]; simp [updPending]
  have e4 : st4 = { st3 with pending_uploads := updPending st3.pending_uploads user (some ⟨catB, [Y]⟩) } := by
    simp [h4, handle_media, p3]
  have p4 : st4.pending_uploads user = some ⟨catB, [Y]⟩ := by
    rw [e4]; simp [updPending]
  have edb4 : st4.db = st.db := by
    rw [e4, e3]; exact edb2
  have hfk : st.db.categories.any (fun c => c.id == catB) = true :=
    any_id_of_get_category st.db catB hB
  have hadd : add_files_to_category st4.db catB [Y] none now =
      (true,
        { st.db with
          files := st.db.files ++ [⟨st.db.nextRowId, catB, Y, now⟩],
          nextRowId := st.db.nextRowId + 1 }) := by
    rw [edb4]
    simp [add_files_to_category, hfk, insertIgnore, hYfresh]
  refine ⟨p3, ?_, ?_, ?_, ?_⟩
  · rw [e3, start_adding_files]
  · simp [finish_upload, p4, hadd]
  · simp [finish_upload, p4, hadd, updPending]
  · simp [finish_upload, p4, hadd]

/-- Witness for C4: over `dbUp` (categories `catA`, `catB`, no files),
admin 1 starts uploading to `catA`, adds `fX`, starts uploading to `catB`,
adds `fY`, finishes: only `fY` is persisted, to `catB`. -/
theorem second_upload_replaces_session_witness :
    (finish_upload
        (handle_media
          (upload_command [1]
            (handle_media (upload_command [1] stUp 1 "catA") 1 (some fX)) 1 "catB")
          1 (some fY)) 1 5 none).1.db.files =
      dbUp.files ++ [⟨1, "catB", fY, 5⟩] := by
  have h := second_upload_replaces_session [1] stUp 1 "catA" "catB" fX fY 5
    (upload_command [1] stUp 1 "catA")
    (handle_media (upload_command [1] stUp 1 "catA") 1 (some fX))
    (upload_command [1] (handle_media (upload_command [1] stUp 1 "catA") 1 (some fX)) 1 "catB")
    (handle_media
      (upload_command [1] (handle_media (upload_command [1] stUp 1 "catA") 1 (some fX)) 1 "catB")
      1 (some fY))
    (by decide) (by decide) (by decide) (by decide) rfl rfl rfl rfl
  exact h.2.2.2.2

/-- C6: the batch insert reports success for every batch under an existing
category; a batch `[f1, f2, f1]` where `f1` is already stored adds exactly
one row (for `f2`), skipping both `f1` occurrences, so the category's file
count grows by exactly 1; and a fresh id appearing twice in one batch is
inserted only once. -/
theorem batch_insert_skips_duplicates (db : DBState) (category_id : String)
    (f1 f2 : FileInfo) (now : Nat)
    (hcat : db.categories.any (fun c => c.id == category_id) = true)
    (hf1 : db.files.any (fun r => r.info.file_id == f1.file_id) = true)
    (hf2 : db.files.any (fun r => r.info.file_id == f2.file_id) = false) :
    (∀ files : List FileInfo,
      (add_files_to_category db category_id files none now).1 = true) ∧
    (add_files_to_category db category_id [f1, f2, f1] none now).2.files =
      db.files ++ [⟨db.nextRowId, category_id, f2, now⟩] ∧
    ((add_files_to_category db category_id [f1, f2, f1] none now).2.files.filter
        (fun r => r.category_id == category_id)).length =
      (db.files.filter (fun r => r.category_id == category_id)).length + 1 ∧
    (add_files_to_category db category_id [f2, f2] none now).2.files =
      db.files ++ [⟨db.nextRowId, category_id, f2, now⟩] := by
  have h3 : (db.files ++ [(⟨db.nextRowId, category_id, f2, now⟩ : FileRow)]).any
      (fun r => r.info.file_id == f1.file_id) = true := by
    simp [List.any_append, hf1]
  have h4 : (db.files ++ [(⟨db.nextRowId, category_id, f2, now⟩ : FileRow)]).any
      (fun r => r.info.file_id == f2.file_id) = true := by
    simp [List.any_append]
  have hfold : [f1, f2, f1].foldl (insertIgnore category_id now) (db.files, db.nextRowId) =
      (db.files ++ [⟨db.nextRowId, category_id, f2, now⟩], db.nextRowId + 1) := by
    simp [insertIgnore, hf1, hf2, h3]
  have hfold2 : [f2, f2].foldl (insertIgnore category_id now) (db.files, db.nextRowId) =
      (db.files ++ [⟨db.nextRowId, category_id, f2, now⟩], db.nextRowId + 1) := by
    simp [insertIgnore, hf2, h4]
  refine ⟨?_, ?_, ?_, ?_⟩
  · intro files
    simp [add_files_to_category, hcat]
  · simp [add_files_to_category, hcat, hfold]
  · simp [add_files_to_category, hcat, hfold, List.filter_append]
  · simp [add_files_to_category, hcat, hfold2]

/-- Witness for C6: over `dbBatch` (category `cat1` storing `f1b`), the
batch `[f1b, f2b, f1b]` reports success and raises the file count of
`cat1` from 1 to 2. -/
theorem batch_insert_skips_duplicates_witness :
    (add_files_to_category dbBatch "cat1" [f1b, f2b, f1b] none 7).1 = true ∧
    ((add_files_to_category dbBatch "cat1" [f1b, f2b, f1b] none 7).2.files.filter
        (fun r => r.category_id == "cat1")).length =
      (dbBatch.files.filter (fun r => r.category_id == "cat1")).length + 1 := by
  have h := batch_insert_skips_duplicates dbBatch "cat1" f1b f2b 7
    (by decide) (by decide) (by decide)
  exact ⟨h.1 [f1b, f2b, f1b], h.2.2.1⟩

/-- C9 (divergence at the failing input): category `v1` holds exactly one
stored file, a video.  The main delivery path `send_category_files`
dispatches it to one `sendVideo` carrying its token and caption, but the
admin view path `view_category_files` — whose own trailing comment says the
remaining kinds are handled like documents and photos — emits no send at
all for it (only the pacing sleep runs). -/
theorem view_files_drops_non_document_photo :
    (get_category dbVid "v1" none none).map (fun c => c.files) = some [fVid] ∧
    view_category_files dbVid 7 "v1" (fun _ => false) = .sent [.sleep] ∧
    send_category_files dbVid 7 "v1" (fun _ => false) =
      .sent [.send (.sendVideo 7 "fidV" "cap"), .sleep] ∧
    sendsOf [DeliveryEvent.sleep] = [] := by
  refine ⟨by decide, by decide, by decide, by decide⟩

/-- When the stored SERIAL ids are distinct, the SQL `DELETE ... WHERE id =`
(modelled as a filter on `rowId`) removes exactly the selected row. -/
theorem filter_rowId_eq_erase (l : List FileRow) (a : FileRow)
    (hnd : (l.map (·.rowId)).Nodup) (ha : a ∈ l) :
    l.filter (fun f => !(f.rowId == a.rowId)) = l.erase a := by
  induction l with
  | nil => cases ha
  | cons b t ih =>
    rw [List.map_cons, List.nodup_cons] at hnd
    obtain ⟨hb, hndt⟩ := hnd
    rcases List.mem_cons.mp ha with rfl | hat
    · rw [List.filter_cons_of_neg (by simp), List.erase_cons_head]
      rw [List.filter_eq_self]
      intro x hx
      have hxid : x.rowId ∈ t.map (·.rowId) := List.mem_map_of_mem _ hx
      simp only [Bool.not_eq_eq_eq_not, Bool.not_true, beq_eq_false_iff_ne]
      intro hcontra
      rw [← hcontra] at hb
      exact hb hxid
    · have hba : (b.rowId == a.rowId) = false := by
        have haid : a.rowId ∈ t.map (·.rowId) := List.mem_map_of_mem _ hat
        rw [beq_eq_false_iff_ne]
        intro hcontra
        rw [hcontra] at hb
        exact hb haid
      have hbne : ¬(b == a) := by
        intro hcontra
        have : b = a := eq_of_beq hcontra
        rw [this] at hba
        simp at hba
      rw [List.filter_cons_of_pos (by simp [hba]), ih hndt hat,
        List.erase_cons_tail hbne]

/-- C8: when the stored row ids are distinct, deleting at a zero-based
index removes exactly the file at that position of the category's
upload-time ordering and returns true; an index at or beyond the
category's file count is a no-op returning false with the store
unchanged. -/
theorem delete_file_index_semantics (db : DBState) (category_id : String) (idx : Nat)
    (hnd : (db.files.map (·.rowId)).Nodup) :
    ((db.files.filter (fun f => f.category_id == category_id)).insertionSort
        uploadLe).length =
      (db.files.filter (fun f => f.category_id == category_id)).length ∧
    (∀ row,
      ((db.files.filter (fun f => f.category_id == category_id)).insertionSort
          uploadLe)[idx]? = some row →
      (delete_file db category_id idx none).1 = true ∧
      db.files.Perm (row :: (delete_file db category_id idx none).2.files) ∧
      (delete_file db category_id idx none).2.files.Sublist db.files ∧
      (delete_file db category_id idx none).2.categories = db.categories ∧
      (delete_file db category_id idx none).2.channels = db.channels) ∧
    (((db.files.filter (fun f => f.category_id == category_id)).insertionSort
        uploadLe)[idx]? = none →
      delete_file db category_id idx none = (false, db)) ∧
    ((db.files.filter (fun f => f.category_id == category_id)).length ≤ idx ↔
      ((db.files.filter (fun f => f.category_id == category_id)).insertionSort
        uploadLe)[idx]? = none) := by
  refine ⟨List.length_insertionSort uploadLe _, ?_, ?_, ?_⟩
  · intro row hrow
    have hmem : row ∈ db.files := by
      have h1 := List.getElem?_mem hrow
      rw [List.mem_insertionSort] at h1
      exact (List.mem_filter.mp h1).1
    have hdel : delete_file db category_id idx none =
        (true, { db with files := db.files.filter (fun f => !(f.rowId == row.rowId)) }) := by
      simp [delete_file, hrow]
    rw [hdel]
    refine ⟨rfl, ?_, List.filter_sublist _, rfl, rfl⟩
    show db.files.Perm (row :: db.files.filter (fun f => !(f.rowId == row.rowId)))
    rw [filter_rowId_eq_erase db.files row hnd hmem]
    exact List.perm_cons_erase hmem
  · intro hrow
    simp [delete_file, hrow]
  · rw [List.getElem?_eq_none_iff, List.length_insertionSort]

/-- Witness for C8: over `dbDel` (category `cat1` with exactly two files),
`delete_file` at index 2 is a no-op returning false, leaving the database
unchanged. -/
theorem delete_file_index_semantics_witness :
    delete_file dbDel "cat1" 2 none = (false, dbDel) :=
  (delete_file_index_semantics dbDel "cat1" 2 (by decide)).2.2.1 (by decide)

/-- Inserting an element all of whose successors it precedes puts it at the
head. -/
theorem orderedInsert_eq_cons_of_forall {α : Type} (r : α → α → Prop) [DecidableRel r]
    (a : α) (l : List α) (h : ∀ x ∈ l, r a x) :
    l.orderedInsert r a = a :: l := by
  cases l with
  | nil => rfl
  | cons b t => exact List.orderedInsert_of_le r t (h b (List.mem_cons_self b t))

/-- Filtering commutes with a stable ordered insert into a sorted list:
the inserted element survives iff it passes the filter. -/
theorem filter_orderedInsert {α : Type} (r : α → α → Prop) [DecidableRel r] [IsTrans α r]
    (p : α → Bool) (a : α) :
    ∀ l : List α, l.Sorted r →
      (l.orderedInsert r a).filter p =
        if p a then (l.filter p).orderedInsert r a else l.filter p := by
  intro l
  induction l with
  | nil =>
    intro _
    by_cases hpa : p a <;> simp [List.orderedInsert, hpa]
  | cons b t ih =>
    intro hs
    have hst : t.Sorted r := hs.of_cons
    simp only [List.orderedInsert]
    by_cases hab : r a b
    · rw [if_pos hab]
      by_cases hpa : p a
      · rw [if_pos hpa, List.filter_cons_of_pos hpa]
        have hall : ∀ x ∈ (b :: t).filter p, r a x := by
          intro x hx
          have hx2 := (List.mem_filter.mp hx).1
          rcases List.mem_cons.mp hx2 with rfl | hxt
          · exact hab
          · exact Trans.trans hab (List.rel_of_sorted_cons hs x hxt)
        exact (orderedInsert_eq_cons_of_forall r a _ hall).symm
      · rw [if_neg hpa, List.filter_cons_of_neg hpa]
    · rw [if_neg hab]
      by_cases hpb : p b
      · rw [List.filter_cons_of_pos hpb, ih hst, List.filter_cons_of_pos hpb]
        by_cases hpa : p a
        · rw [if_pos hpa, if_pos hpa]
          simp only [List.orderedInsert, if_neg hab]
        · rw [if_neg hpa, if_neg hpa]
      · rw [List.filter_cons_of_neg hpb, ih hst, List.filter_cons_of_neg hpb]

/-- Filtering commutes with stable insertion sort: sorting everything and
then keeping one group equals sorting that group. -/
theorem filter_insertionSort {α : Type} (r : α → α → Prop) [DecidableRel r]
    [IsTotal α r] [IsTrans α r] (p : α → Bool) (l : List α) :
    (l.insertionSort r).filter p = (l.filter p).insertionSort r := by
  induction l with
  | nil => rfl
  | cons a t ih =>
    simp only [List.insertionSort]
    rw [filter_orderedInsert r p a _ (List.sorted_insertionSort r t), ih]
    by_cases hpa : p a
    · rw [if_pos hpa, List.filter_cons_of_pos hpa]
      simp only [List.insertionSort]
    · rw [if_neg hpa, List.filter_cons_of_neg hpa]

/-- C7: `get_categories` returns every stored category, ordered by creation
time descending, each carrying exactly its own files sorted by ascending
upload time; and for a non-empty store it issues exactly one batched files
query covering all category ids (none when the store is empty). -/
theorem list_categories_order_and_single_query (db : DBState) :
    ((get_categories db none none).1.map Prod.fst).Perm (db.categories.map (·.id)) ∧
    (get_categories db none none).1.Pairwise
      (fun a b => b.2.created_at ≤ a.2.created_at) ∧
    (∀ p ∈ (get_categories db none none).1,
      p.2.files =
        ((db.files.filter (fun f => f.category_id == p.1)).insertionSort uploadLe).map
          (·.info)) ∧
    (db.categories = [] → (get_categories db none none).2 = [.categoriesQ]) ∧
    (db.categories ≠ [] →
      ∃ ids, (get_categories db none none).2 = [.categoriesQ, .filesQ ids] ∧
        ids.Perm (db.categories.map (·.id))) := by
  cases hemp : (catRowsSortedDesc db).isEmpty with
  | true =>
    have hnil : catRowsSortedDesc db = [] := List.isEmpty_iff.mp hemp
    have hcats : db.categories = [] := by
      have hp := List.perm_insertionSort createdGe db.categories
      rw [show db.categories.insertionSort createdGe = catRowsSortedDesc db from rfl,
        hnil] at hp
      exact hp.symm.eq_nil
    have hg : get_categories db none none = ([], [.categoriesQ]) := by
      simp [get_categories, call, hemp]
    refine ⟨?_, ?_, ?_, ?_, ?_⟩
    · rw [hg, hcats]; simp
    · rw [hg]; simp
    · rw [hg]; simp
    · intro _; rw [hg]
    · intro hcontr; exact absurd hcats hcontr
  | false =>
    have hg : get_categories db none none =
        ((catRowsSortedDesc db).map (fun c =>
          (c.id,
            { name := c.name,
              files := (((db.files.filter (fun f =>
                  ((catRowsSortedDesc db).map (·.id)).contains f.category_id)).insertionSort
                    uploadLe).filter (fun f => f.category_id == c.id)).map (·.info),
              created_by := c.created_by,
              created_at := c.created_at })),
          [.categoriesQ, .filesQ ((catRowsSortedDesc db).map (·.id))]) := by
      simp [get_categories, call, hemp]
    have hperm := List.perm_insertionSort createdGe db.categories
    refine ⟨?_, ?_, ?_, ?_, ?_⟩
    · rw [hg]
      simp only [List.map_map]
      simpa using hperm.map (fun c => c.id)
    · rw [hg]
      exact List.Pairwise.map _ (fun a b h => h)
        (List.sorted_insertionSort createdGe db.categories)
    · rw [hg]
      intro p hp
      obtain ⟨c, hc, rfl⟩ := List.mem_map.mp hp
      have hcid : c.id ∈ (catRowsSortedDesc db).map (·.id) := List.mem_map_of_mem _ hc
      show (((db.files.filter (fun f =>
          ((catRowsSortedDesc db).map (·.id)).contains f.category_id)).insertionSort
            uploadLe).filter (fun f => f.category_id == c.id)).map (·.info) =
        ((db.files.filter (fun f => f.category_id == c.id)).insertionSort uploadLe).map
          (·.info)
      rw [filter_insertionSort uploadLe, List.filter_filter]
      have hfeq : db.files.filter (fun f =>
          (f.category_id == c.id) &&
            ((catRowsSortedDesc db).map (·.id)).contains f.category_id) =
          db.files.filter (fun f => f.category_id == c.id) := by
        apply List.filter_congr
        intro f _
        by_cases hf : f.category_id == c.id
        · have : f.category_id = c.id := eq_of_beq hf
          simp [hf, this]
          exact ⟨c, hc, rfl⟩
        · simp [hf]
      rw [hfeq]
    · intro hc
      exfalso
      have : catRowsSortedDesc db = [] := by
        rw [catRowsSortedDesc, hc]; rfl
      rw [this] at hemp
      simp at hemp
    · intro _
      refine ⟨(catRowsSortedDesc db).map (·.id), by rw [hg], ?_⟩
      simpa using hperm.map (fun c => c.id)

/-- Witness for C7: over `dbCats` (two categories, three files), the files
of all categories are fetched through a single batched query naming both
category ids. -/
theorem list_categories_order_and_single_query_witness :
    ∃ ids, (get_categories dbCats none none).2 = [.categoriesQ, .filesQ ids] ∧
      ids.Perm (dbCats.categories.map (·.id)) :=
  (list_categories_order_and_single_query dbCats).2.2.2.2 (by decide)

end FMUpload
